import Mathlib

/-!
Verification of the spellpaste playground core pipeline, shallowly embedded
from src/playground/src-tauri/src/lib.rs.

Embedding conventions:
- The mpsc receiver driving stream_batched is modelled as a finite schedule of
  receive outcomes: RecvEvent.chunk s for rx.recv_timeout returning Ok(s), and
  RecvEvent.timeout for a 200ms window expiring with no further chunk. Once the
  schedule is exhausted every further receive returns Disconnected (the reader
  thread sends all chunks in order and then drops the sender, so Disconnected
  is terminal in the real channel as well). Quantifying over schedules
  quantifies over every placement of window boundaries.
- apply_spell is modelled as a pure function from the shared state it reads
  (spell store, previous-window slot, selected text) and an oracle for
  execute_spell, to the returned Result together with the ordered trace of
  observable side effects it performs.
- The background threads spawned by the two streaming branches are modelled by
  separate functions over the spawn outcome (Option.none for a spawn failure).
-/

-- ---- Data model (from lib.rs) ----

inductive OutputMode
  | none
  | clipboard
  | preview
  | paste
  deriving DecidableEq, Repr

structure LoadedSpell where
  trigger : String
  description : Option String
  collection_dir : String
  entry_cmd : String
  output_mode : OutputMode
  stream_mode : Bool
  deriving DecidableEq, Repr

inductive SpellResult
  | done
  | preview (content : String)
  | stream
  deriving DecidableEq, Repr

-- ---- Stream batching (stream_batched, lib.rs lines 308-333) ----

/-- One outcome of rx.recv_timeout inside the batcher loop: either a chunk
arrives before the current 200ms deadline, or the deadline expires first.
After the schedule is exhausted the channel reports Disconnected. -/
inductive RecvEvent
  | chunk (s : String)
  | timeout
  deriving DecidableEq, Repr

/-- The batcher loop of stream_batched: accumulate chunks into buf; on window
expiry flush (buf, false) when buf is non-empty; on Disconnected flush
(buf, true) and stop. Returns the list of on_flush calls in order. -/
def stream_batched : List RecvEvent → String → List (String × Bool)
  | [], buf => [(buf, true)]
  | RecvEvent.chunk s :: rest, buf => stream_batched rest (buf ++ s)
  | RecvEvent.timeout :: rest, buf =>
      if buf = "" then stream_batched rest ""
      else (buf, false) :: stream_batched rest ""

/-- Concatenation of the chunks carried by a schedule, in arrival order. -/
def chunkText : List RecvEvent → String
  | [] => ""
  | RecvEvent.chunk s :: rest => s ++ chunkText rest
  | RecvEvent.timeout :: rest => chunkText rest

/-- Concatenation of a list of strings in order. -/
def concatAll : List String → String
  | [] => ""
  | s :: rest => s ++ concatAll rest

lemma string_append_data (s t : String) : (s ++ t).data = s.data ++ t.data := rfl

lemma string_append_assoc (s t u : String) : s ++ t ++ u = s ++ (t ++ u) := by
  apply String.ext
  simp [string_append_data, List.append_assoc]

lemma string_append_empty (s : String) : s ++ "" = s := by
  apply String.ext
  simp [string_append_data]

lemma string_empty_append (s : String) : "" ++ s = s := by
  apply String.ext
  simp [string_append_data]

/-- Generalised content preservation: starting from accumulation buffer buf,
the emitted contents concatenate to buf followed by all scheduled chunks. -/
lemma stream_batched_content (sched : List RecvEvent) :
    ∀ buf : String,
      concatAll ((stream_batched sched buf).map Prod.fst) = buf ++ chunkText sched := by
  induction sched with
  | nil =>
      intro buf
      simp [stream_batched, chunkText, concatAll, string_append_empty]
  | cons ev rest ih =>
      intro buf
      cases ev with
      | chunk s =>
          simp only [stream_batched, chunkText]
          rw [ih (buf ++ s), string_append_assoc]
      | timeout =>
          simp only [stream_batched, chunkText]
          by_cases hbuf : buf = ""
          · simp [hbuf, ih ""]
          · simp only [hbuf, if_false, List.map_cons, concatAll]
            rw [ih "", string_empty_append]

/-- Shape of a batcher run: some prefix of non-final emissions followed by a
single final emission. -/
lemma stream_batched_shape (sched : List RecvEvent) :
    ∀ buf : String, ∃ (pre : List (String × Bool)) (last : String),
      stream_batched sched buf = pre ++ [(last, true)] ∧ ∀ p ∈ pre, p.2 = false := by
  induction sched with
  | nil =>
      intro buf
      exact ⟨[], buf, rfl, by simp⟩
  | cons ev rest ih =>
      intro buf
      cases ev with
      | chunk s =>
          obtain ⟨pre, last, heq, hfalse⟩ := ih (buf ++ s)
          exact ⟨pre, last, heq, hfalse⟩
      | timeout =>
          obtain ⟨pre, last, heq, hfalse⟩ := ih ""
          by_cases hbuf : buf = ""
          · exact ⟨pre, last, by simp [stream_batched, hbuf, heq], hfalse⟩
          · refine ⟨(buf, false) :: pre, last, ?_, ?_⟩
            · simp [stream_batched, hbuf, heq]
            · intro p hp
              rcases List.mem_cons.mp hp with h | h
              · simp [h]
              · exact hfalse p h

-- ---- Claim theorems for the batcher ----

/-- C1: for every finite schedule of input chunks and window boundaries, the
concatenation of all emitted contents (non-final and final, in emission order)
equals the concatenation of the input chunks in arrival order. -/
theorem batcher_preserves_content (sched : List RecvEvent) :
    concatAll ((stream_batched sched "").map Prod.fst) = chunkText sched := by
  rw [stream_batched_content sched "", string_empty_append]

/-- C2: every batcher run emits exactly one final-flagged emission, it is the
last one, and it arises only from the Disconnected (end-of-stream) branch; the
window-expiry branch always emits final = false. -/
theorem batcher_single_final (sched : List RecvEvent) :
    ∃ (pre : List (String × Bool)) (last : String),
      stream_batched sched "" = pre ++ [(last, true)] ∧ ∀ p ∈ pre, p.2 = false :=
  stream_batched_shape sched ""

-- ---- Dispatcher (apply_spell, lib.rs lines 399-474) ----

/-- An observable side effect performed by the dispatcher, in program order. -/
inductive Effect
  | runCommand (cmd dir input : String)
  | clipboardSet (text : String)
  | hideWindow
  | restoreFocus (prev : Int)
  | settleDelay (ms : Nat)
  | pasteGesture
  | startPreviewStream (cmd dir input : String)
  | startTypeStream (cmd dir input : String)
  deriving DecidableEq, Repr

/-- A single-quote character, used in the not-found error message. -/
def quoteChar : String := String.mk [Char.ofNat 39]

/-- The error message produced when a trigger is absent from the store. -/
def notFoundMsg (trigger : String) : String :=
  "Spell " ++ quoteChar ++ trigger ++ quoteChar ++ " not found"

/-- output.trim_end_matches of the newline character: removes every trailing
newline character, and nothing else. -/
def trim_end_matches_newline (s : String) : String :=
  String.mk ((s.data.reverse.dropWhile (fun c => c = '\n')).reverse)

/-- apply_spell as a pure function. Inputs are the shared state it reads (the
spell store, the previous-window slot, the selected text), an oracle exec for
execute_spell (the whole run-to-completion outcome: Except.error for a spawn
or wait failure, Except.ok for the captured stdout), and the trigger. Output
is the returned Result together with the ordered side-effect trace. -/
def apply_spell (store : List LoadedSpell) (prevWindow : Int) (selected : String)
    (exec : String → String → String → Except String String)
    (trigger : String) : Except String SpellResult × List Effect :=
  match store.find? (fun s => s.trigger == trigger) with
  | Option.none => (Except.error (notFoundMsg trigger), [])
  | Option.some spell =>
    if spell.output_mode = OutputMode.preview ∧ spell.stream_mode = true then
      (Except.ok SpellResult.stream,
       [Effect.startPreviewStream spell.entry_cmd spell.collection_dir selected])
    else if spell.output_mode = OutputMode.paste ∧ spell.stream_mode = true then
      (Except.ok SpellResult.done,
       [Effect.hideWindow, Effect.restoreFocus prevWindow, Effect.settleDelay 50,
        Effect.startTypeStream spell.entry_cmd spell.collection_dir selected])
    else
      match exec spell.entry_cmd spell.collection_dir selected with
      | Except.error e =>
          (Except.error e, [Effect.runCommand spell.entry_cmd spell.collection_dir selected])
      | Except.ok output =>
        match spell.output_mode with
        | OutputMode.none =>
            (Except.ok SpellResult.done,
             [Effect.runCommand spell.entry_cmd spell.collection_dir selected,
              Effect.hideWindow, Effect.restoreFocus prevWindow])
        | OutputMode.clipboard =>
            (Except.ok SpellResult.done,
             [Effect.runCommand spell.entry_cmd spell.collection_dir selected,
              Effect.clipboardSet (trim_end_matches_newline output),
              Effect.hideWindow, Effect.restoreFocus prevWindow])
        | OutputMode.preview =>
            (Except.ok (SpellResult.preview output),
             [Effect.runCommand spell.entry_cmd spell.collection_dir selected])
        | OutputMode.paste =>
            (Except.ok SpellResult.done,
             [Effect.runCommand spell.entry_cmd spell.collection_dir selected,
              Effect.clipboardSet (trim_end_matches_newline output),
              Effect.hideWindow, Effect.restoreFocus prevWindow,
              Effect.settleDelay 50, Effect.pasteGesture])

-- ---- Streaming thread bodies (lib.rs lines 336-367) ----

/-- A frontend event pushed by the preview-stream thread. -/
inductive StreamEvent
  | streamChunk (text : String)
  | streamEnd
  deriving DecidableEq, Repr

/-- The on_flush closure of start_spell_preview_stream, applied to every flush
in order: emit the chunk when non-empty, then the end event when final. -/
def flushEvents : List (String × Bool) → List StreamEvent
  | [] => []
  | (chunk, fin) :: rest =>
      (if chunk = "" then [] else [StreamEvent.streamChunk chunk]) ++
      (if fin then [StreamEvent.streamEnd] else []) ++ flushEvents rest

/-- The background thread of start_spell_preview_stream. spawnRes is
Option.none when spawn_entry fails (the thread emits only the end event and
returns); otherwise it carries the receive schedule of the spawned child. -/
def start_spell_preview_stream (spawnRes : Option (List RecvEvent)) : List StreamEvent :=
  match spawnRes with
  | Option.none => [StreamEvent.streamEnd]
  | Option.some sched => flushEvents (stream_batched sched "")

/-- The background thread of start_spell_type_stream: the list of texts typed,
in order. On spawn failure the thread returns silently, typing nothing and
reporting nothing. -/
def start_spell_type_stream (spawnRes : Option (List RecvEvent)) : List String :=
  match spawnRes with
  | Option.none => []
  | Option.some sched =>
      ((stream_batched sched "").map Prod.fst).filter (fun c => !(c == ""))

-- ---- Selection capture (run, lib.rs lines 506-524) ----

/-- The clipboard-diff selection capture of the hotkey handler: each clipboard
read is an Option (Option.none for a read failure, degraded to the empty
string by unwrap_or_default); the selection is the post-copy text when it
differs from the pre-copy text, and empty otherwise. -/
def capture_selection (before after : Option String) : String :=
  let b := before.getD ""
  let a := after.getD ""
  if a ≠ b then a else ""

-- ---- Claim theorems for the dispatcher ----

/-- C3: an unregistered trigger makes apply_spell fail with the not-found
error before any side effect: no process spawn, no window manipulation, no
clipboard write, no state change appear in the trace. -/
theorem apply_spell_not_found (store : List LoadedSpell) (prev : Int) (sel : String)
    (exec : String → String → String → Except String String) (trigger : String)
    (h : ∀ s ∈ store, s.trigger ≠ trigger) :
    apply_spell store prev sel exec trigger = (Except.error (notFoundMsg trigger), []) := by
  have hfind : store.find? (fun s => s.trigger == trigger) = Option.none := by
    rw [List.find?_eq_none]
    intro s hs
    simp [h s hs]
  simp [apply_spell, hfind]

/-- C3 witness: a store holding only the trigger hello rejects missing. -/
theorem apply_spell_not_found_witness :
    apply_spell [⟨"hello", Option.none, "d", "echo hi", OutputMode.paste, false⟩] 0 ""
      (fun _ _ _ => Except.ok "") "missing" = (Except.error (notFoundMsg "missing"), []) :=
  apply_spell_not_found _ 0 "" _ "missing" (by decide)

/-- C4 (amended): for non-streaming invocations, a failure of execute_spell
surfaces to the caller as that very error, and the only prior effect is the
command run itself: no window hide, no focus restore, no clipboard write. -/
theorem spawn_failure_surfaced_nonstream (store : List LoadedSpell) (prev : Int) (sel : String)
    (exec : String → String → String → Except String String) (trigger : String)
    (spell : LoadedSpell) (e : String)
    (hfind : store.find? (fun s => s.trigger == trigger) = Option.some spell)
    (hstream : spell.stream_mode = false)
    (hexec : exec spell.entry_cmd spell.collection_dir sel = Except.error e) :
    apply_spell store prev sel exec trigger =
      (Except.error e, [Effect.runCommand spell.entry_cmd spell.collection_dir sel]) := by
  simp [apply_spell, hfind, hstream, hexec]

/-- C4 witness: a clipboard-mode spell whose spawn fails surfaces the cause. -/
theorem spawn_failure_surfaced_nonstream_witness :
    apply_spell [⟨"t", Option.none, "d", "badcmd", OutputMode.clipboard, false⟩] 0 ""
      (fun _ _ _ => Except.error "No such file or directory") "t" =
      (Except.error "No such file or directory", [Effect.runCommand "badcmd" "d" ""]) :=
  spawn_failure_surfaced_nonstream
    [⟨"t", Option.none, "d", "badcmd", OutputMode.clipboard, false⟩] 0 ""
    (fun _ _ _ => Except.error "No such file or directory") "t"
    ⟨"t", Option.none, "d", "badcmd", OutputMode.clipboard, false⟩
    "No such file or directory" rfl rfl rfl

/-- C4 counterexample: in the paste-streaming branch a spawn failure is not
surfaced to the invoke caller (the call already returned Done), the window was
already hidden and focus restored before the spawn, and the background thread
swallows the failure, typing nothing. -/
theorem spawn_failure_stream_counterexample :
    (apply_spell [⟨"t", Option.none, "d", "badcmd", OutputMode.paste, true⟩] 7 ""
        (fun _ _ _ => Except.error "spawn failed") "t").1 = Except.ok SpellResult.done ∧
    (apply_spell [⟨"t", Option.none, "d", "badcmd", OutputMode.paste, true⟩] 7 ""
        (fun _ _ _ => Except.error "spawn failed") "t").2 =
      [Effect.hideWindow, Effect.restoreFocus 7, Effect.settleDelay 50,
       Effect.startTypeStream "badcmd" "d" ""] ∧
    start_spell_type_stream Option.none = [] :=
  ⟨rfl, rfl, rfl⟩

/-- C5: a clipboard-mode non-streaming spell runs the command to completion,
writes the output with trailing newlines trimmed to the clipboard, hides the
window, restores focus, and returns Done. -/
theorem clipboard_writes_trimmed_output (store : List LoadedSpell) (prev : Int) (sel : String)
    (exec : String → String → String → Except String String) (trigger : String)
    (spell : LoadedSpell) (out : String)
    (hfind : store.find? (fun s => s.trigger == trigger) = Option.some spell)
    (hmode : spell.output_mode = OutputMode.clipboard)
    (hstream : spell.stream_mode = false)
    (hexec : exec spell.entry_cmd spell.collection_dir sel = Except.ok out) :
    apply_spell store prev sel exec trigger =
      (Except.ok SpellResult.done,
       [Effect.runCommand spell.entry_cmd spell.collection_dir sel,
        Effect.clipboardSet (trim_end_matches_newline out),
        Effect.hideWindow, Effect.restoreFocus prev]) := by
  simp [apply_spell, hfind, hmode, hstream, hexec]

/-- C5 witness: the hello scenario ends with Hello, World! on the clipboard. -/
theorem clipboard_writes_trimmed_output_witness :
    apply_spell [⟨"hello", Option.none, "dir", "echo Hello, World!", OutputMode.clipboard, false⟩]
        0 "" (fun _ _ _ => Except.ok "Hello, World!\n") "hello" =
      (Except.ok SpellResult.done,
       [Effect.runCommand "echo Hello, World!" "dir" "",
        Effect.clipboardSet "Hello, World!",
        Effect.hideWindow, Effect.restoreFocus 0]) := by
  have h := clipboard_writes_trimmed_output
    [⟨"hello", Option.none, "dir", "echo Hello, World!", OutputMode.clipboard, false⟩]
    0 "" (fun _ _ _ => Except.ok "Hello, World!\n") "hello" _ "Hello, World!\n" rfl rfl rfl rfl
  exact h

/-- C6: a preview-mode non-streaming spell returns the full untrimmed output
as the preview content, and its trace holds only the command run: no clipboard
write, no window hide, no focus restore. -/
theorem preview_returns_untrimmed_output (store : List LoadedSpell) (prev : Int) (sel : String)
    (exec : String → String → String → Except String String) (trigger : String)
    (spell : LoadedSpell) (out : String)
    (hfind : store.find? (fun s => s.trigger == trigger) = Option.some spell)
    (hmode : spell.output_mode = OutputMode.preview)
    (hstream : spell.stream_mode = false)
    (hexec : exec spell.entry_cmd spell.collection_dir sel = Except.ok out) :
    apply_spell store prev sel exec trigger =
      (Except.ok (SpellResult.preview out),
       [Effect.runCommand spell.entry_cmd spell.collection_dir sel]) := by
  simp [apply_spell, hfind, hmode, hstream, hexec]

/-- C6 witness: the cat scenario returns Preview abc with no other effects. -/
theorem preview_returns_untrimmed_output_witness :
    apply_spell [⟨"c", Option.none, "dir", "cat", OutputMode.preview, false⟩]
        0 "abc" (fun _ _ input => Except.ok input) "c" =
      (Except.ok (SpellResult.preview "abc"), [Effect.runCommand "cat" "dir" "abc"]) :=
  preview_returns_untrimmed_output
    [⟨"c", Option.none, "dir", "cat", OutputMode.preview, false⟩] 0 "abc"
    (fun _ _ input => Except.ok input) "c"
    ⟨"c", Option.none, "dir", "cat", OutputMode.preview, false⟩ "abc" rfl rfl rfl rfl

-- ---- Effect classifiers for the ordering claim ----

/-- Effects relevant to the hide/restore/delay/input ordering invariant. -/
def focusInputEffect : Effect → Bool
  | Effect.hideWindow => true
  | Effect.restoreFocus _ => true
  | Effect.settleDelay _ => true
  | Effect.pasteGesture => true
  | Effect.startTypeStream _ _ _ => true
  | _ => false

/-- Synthetic-input effects: a paste gesture, or starting the typing stream. -/
def isSyntheticInput : Effect → Bool
  | Effect.pasteGesture => true
  | Effect.startTypeStream _ _ _ => true
  | _ => false

/-- Focus-restoring effects. -/
def isRestoreFocus : Effect → Bool
  | Effect.restoreFocus _ => true
  | _ => false

/-- Every possible side-effect trace of apply_spell, one disjunct per branch. -/
lemma apply_spell_effects_shape (store : List LoadedSpell) (prev : Int) (sel : String)
    (exec : String → String → String → Except String String) (trigger : String) :
    (apply_spell store prev sel exec trigger).2 = [] ∨
    (∃ c d i, (apply_spell store prev sel exec trigger).2 = [Effect.startPreviewStream c d i]) ∨
    (∃ c d i, (apply_spell store prev sel exec trigger).2 =
       [Effect.hideWindow, Effect.restoreFocus prev, Effect.settleDelay 50,
        Effect.startTypeStream c d i]) ∨
    (∃ c d i, (apply_spell store prev sel exec trigger).2 = [Effect.runCommand c d i]) ∨
    (∃ c d i, (apply_spell store prev sel exec trigger).2 =
       [Effect.runCommand c d i, Effect.hideWindow, Effect.restoreFocus prev]) ∨
    (∃ c d i t, (apply_spell store prev sel exec trigger).2 =
       [Effect.runCommand c d i, Effect.clipboardSet t,
        Effect.hideWindow, Effect.restoreFocus prev]) ∨
    (∃ c d i t, (apply_spell store prev sel exec trigger).2 =
       [Effect.runCommand c d i, Effect.clipboardSet t,
        Effect.hideWindow, Effect.restoreFocus prev,
        Effect.settleDelay 50, Effect.pasteGesture]) := by
  rcases hfind : store.find? (fun s => s.trigger == trigger) with _ | spell
  · exact Or.inl (by simp [apply_spell, hfind])
  · simp only [apply_spell, hfind]
    by_cases h1 : spell.output_mode = OutputMode.preview ∧ spell.stream_mode = true
    · rw [if_pos h1]
      exact Or.inr (Or.inl ⟨_, _, _, rfl⟩)
    · rw [if_neg h1]
      by_cases h2 : spell.output_mode = OutputMode.paste ∧ spell.stream_mode = true
      · rw [if_pos h2]
        exact Or.inr (Or.inr (Or.inl ⟨_, _, _, rfl⟩))
      · rw [if_neg h2]
        cases hexec : exec spell.entry_cmd spell.collection_dir sel with
        | error e => exact Or.inr (Or.inr (Or.inr (Or.inl ⟨_, _, _, rfl⟩)))
        | ok output =>
          cases hmode : spell.output_mode with
          | none => exact Or.inr (Or.inr (Or.inr (Or.inr (Or.inl ⟨_, _, _, rfl⟩))))
          | clipboard =>
              exact Or.inr (Or.inr (Or.inr (Or.inr (Or.inr (Or.inl ⟨_, _, _, _, rfl⟩)))))
          | preview => exact Or.inr (Or.inr (Or.inr (Or.inl ⟨_, _, _, rfl⟩)))
          | paste =>
              exact Or.inr (Or.inr (Or.inr (Or.inr (Or.inr (Or.inr ⟨_, _, _, _, rfl⟩)))))

/-- C7: in every apply_spell run whose trace both restores focus and sends
synthetic input, the ordering-relevant effects are exactly hide-window, then
restore-focus, then the 50ms settle-delay, then the synthetic input. -/
theorem dispatch_focus_input_order (store : List LoadedSpell) (prev : Int) (sel : String)
    (exec : String → String → String → Except String String) (trigger : String)
    (_hres : ∃ e ∈ (apply_spell store prev sel exec trigger).2, isRestoreFocus e = true)
    (hinp : ∃ e ∈ (apply_spell store prev sel exec trigger).2, isSyntheticInput e = true) :
    ∃ inp, isSyntheticInput inp = true ∧
      (apply_spell store prev sel exec trigger).2.filter focusInputEffect =
        [Effect.hideWindow, Effect.restoreFocus prev, Effect.settleDelay 50, inp] := by
  rcases apply_spell_effects_shape store prev sel exec trigger with
    h | ⟨c, d, i, h⟩ | ⟨c, d, i, h⟩ | ⟨c, d, i, h⟩ | ⟨c, d, i, h⟩ | ⟨c, d, i, t, h⟩ |
    ⟨c, d, i, t, h⟩
  · rw [h] at hinp
    simp at hinp
  · rw [h] at hinp
    simp [isSyntheticInput] at hinp
  · exact ⟨Effect.startTypeStream c d i, rfl, by rw [h]; rfl⟩
  · rw [h] at hinp
    simp [isSyntheticInput] at hinp
  · rw [h] at hinp
    simp [isSyntheticInput] at hinp
  · rw [h] at hinp
    simp [isSyntheticInput] at hinp
  · exact ⟨Effect.pasteGesture, rfl, by rw [h]; rfl⟩

/-- C7 witness: the non-streaming paste branch shows the required ordering. -/
theorem dispatch_focus_input_order_witness :
    ∃ inp, isSyntheticInput inp = true ∧
      (apply_spell [⟨"p", Option.none, "d", "cmd", OutputMode.paste, false⟩] 3 ""
          (fun _ _ _ => Except.ok "x\n") "p").2.filter focusInputEffect =
        [Effect.hideWindow, Effect.restoreFocus 3, Effect.settleDelay 50, inp] :=
  dispatch_focus_input_order [⟨"p", Option.none, "d", "cmd", OutputMode.paste, false⟩] 3 ""
    (fun _ _ _ => Except.ok "x\n") "p" (by decide) (by decide)

/-- C8: the clipboard-diff capture returns the degraded post-copy text when it
differs from the degraded pre-copy text and the empty string when the two are
equal; a failed read degrades to the empty string, so two failed reads yield
an empty selection. -/
theorem capture_selection_correct (before after : Option String) :
    (capture_selection before after =
       if after.getD "" = before.getD "" then "" else after.getD "") ∧
    capture_selection Option.none Option.none = "" := by
  constructor
  · by_cases h : after.getD "" = before.getD "" <;> simp [capture_selection, h]
  · rfl

-- ---- Helper lemmas for the preview-stream event shape ----

lemma concatAll_append (a b : List String) :
    concatAll (a ++ b) = concatAll a ++ concatAll b := by
  induction a with
  | nil => simp [concatAll, string_empty_append]
  | cons s rest ih => simp [concatAll, ih, string_append_assoc]

lemma concatAll_filter (l : List String) :
    concatAll (l.filter (fun c => !(c == ""))) = concatAll l := by
  induction l with
  | nil => rfl
  | cons s rest ih =>
    by_cases hs : s = ""
    · subst hs
      simpa [concatAll, List.filter_cons, string_empty_append] using ih
    · simp [concatAll, List.filter_cons, hs, ih]

lemma flushEvents_append (a b : List (String × Bool)) :
    flushEvents (a ++ b) = flushEvents a ++ flushEvents b := by
  induction a with
  | nil => rfl
  | cons p rest ih =>
    obtain ⟨c, fin⟩ := p
    simp [flushEvents, ih, List.append_assoc]

lemma flushEvents_all_false (pre : List (String × Bool)) (h : ∀ p ∈ pre, p.2 = false) :
    flushEvents pre =
      ((pre.map Prod.fst).filter (fun c => !(c == ""))).map StreamEvent.streamChunk := by
  induction pre with
  | nil => rfl
  | cons p rest ih =>
    obtain ⟨c, fin⟩ := p
    have hfin : fin = false := h (c, fin) (List.mem_cons_self _ _)
    subst hfin
    have hrest : ∀ p ∈ rest, p.2 = false := fun p hp => h p (List.mem_cons_of_mem _ hp)
    by_cases hc : c = ""
    · subst hc
      simp [flushEvents, List.filter_cons, ih hrest]
    · simp [flushEvents, List.filter_cons, hc, ih hrest]

-- ---- Claim theorem for the preview-stream channel ----

/-- C9: every preview-stream run pushes zero or more non-empty chunk events in
order followed by exactly one end event; the chunks concatenate to the full
child output, and a spawn failure yields zero chunks and one end event. -/
theorem preview_stream_event_shape :
    start_spell_preview_stream Option.none = [StreamEvent.streamEnd] ∧
    ∀ sched : List RecvEvent, ∃ chunks : List String,
      (∀ c ∈ chunks, c ≠ "") ∧
      start_spell_preview_stream (Option.some sched) =
        chunks.map StreamEvent.streamChunk ++ [StreamEvent.streamEnd] ∧
      concatAll chunks = chunkText sched := by
  refine ⟨rfl, fun sched => ?_⟩
  obtain ⟨pre, last, heq, hfalse⟩ := stream_batched_shape sched ""
  refine ⟨(pre.map Prod.fst ++ [last]).filter (fun c => !(c == "")), ?_, ?_, ?_⟩
  · intro c hc
    have := List.of_mem_filter hc
    simpa using this
  · show flushEvents (stream_batched sched "") = _
    rw [heq, flushEvents_append, flushEvents_all_false pre hfalse,
        List.filter_append, List.map_append, List.append_assoc]
    by_cases hlast : last = ""
    · subst hlast
      simp [flushEvents, List.filter_cons]
    · simp [flushEvents, List.filter_cons, hlast]
  · rw [concatAll_filter, concatAll_append]
    have h1 := stream_batched_content sched ""
    rw [heq, List.map_append, concatAll_append, string_empty_append] at h1
    simpa [concatAll, string_append_empty] using h1

/-- C9 witness: a concrete schedule instantiating the shape theorem. -/
theorem preview_stream_event_shape_witness :
    ∃ chunks : List String, (∀ c ∈ chunks, c ≠ "") ∧
      start_spell_preview_stream
          (Option.some [RecvEvent.chunk "a", RecvEvent.timeout, RecvEvent.chunk "b"]) =
        chunks.map StreamEvent.streamChunk ++ [StreamEvent.streamEnd] ∧
      concatAll chunks = chunkText [RecvEvent.chunk "a", RecvEvent.timeout, RecvEvent.chunk "b"] :=
  preview_stream_event_shape.2 [RecvEvent.chunk "a", RecvEvent.timeout, RecvEvent.chunk "b"]

/-- C2 witness: the shape theorem at a concrete schedule. -/
theorem batcher_single_final_witness :
    ∃ (pre : List (String × Bool)) (last : String),
      stream_batched [RecvEvent.chunk "a", RecvEvent.timeout, RecvEvent.chunk "b"] "" =
        pre ++ [(last, true)] ∧ ∀ p ∈ pre, p.2 = false :=
  batcher_single_final [RecvEvent.chunk "a", RecvEvent.timeout, RecvEvent.chunk "b"]

-- ---- Helper lemmas for trailing-newline trimming ----

lemma trim_data (s : String) :
    (trim_end_matches_newline s).data =
      (s.data.reverse.dropWhile (fun c => c = '\n')).reverse := rfl

lemma dropWhile_newline_decomposition (l : List Char) :
    ∃ k, l = List.replicate k '\n' ++ l.dropWhile (fun c => c = '\n') := by
  induction l with
  | nil => exact ⟨0, rfl⟩
  | cons c rest ih =>
    by_cases hc : c = '\n'
    · obtain ⟨k, hk⟩ := ih
      subst hc
      refine ⟨k + 1, ?_⟩
      simpa [List.replicate_succ, List.dropWhile_cons] using congrArg (List.cons '\n') hk
    · exact ⟨0, by simp [List.dropWhile_cons, hc]⟩

lemma head_dropWhile_newline_ne (l : List Char) :
    ¬ ((l.dropWhile (fun c => c = '\n')).head? = Option.some '\n') := by
  induction l with
  | nil => simp
  | cons c rest ih =>
    by_cases hc : c = '\n'
    · simpa [List.dropWhile_cons, hc] using ih
    · simp [List.dropWhile_cons, hc]

lemma trim_decomposition (s : String) :
    ∃ k, s.data = (trim_end_matches_newline s).data ++ List.replicate k '\n' := by
  obtain ⟨k, hk⟩ := dropWhile_newline_decomposition s.data.reverse
  refine ⟨k, ?_⟩
  have hrev := congrArg List.reverse hk
  rw [List.reverse_reverse] at hrev
  rw [hrev, List.reverse_append, List.reverse_replicate, trim_data]

lemma trim_no_trailing_newline (s : String) :
    ¬ ((trim_end_matches_newline s).data.getLast? = Option.some '\n') := by
  rw [trim_data, List.getLast?_reverse]
  exact head_dropWhile_newline_ne s.data.reverse

-- ---- Claim theorem for the trimming behaviour ----

/-- C10: in the clipboard and non-streaming paste branches the clipboard
receives the output trimmed by trim_end_matches_newline; the removed suffix
consists solely of newline characters (so a trailing carriage return stays),
and the trimmed text never ends in a newline (so every trailing newline is
removed, not just one). -/
theorem clipboard_trim_all_and_only_newlines (store : List LoadedSpell) (prev : Int)
    (sel : String) (exec : String → String → String → Except String String)
    (trigger : String) (spell : LoadedSpell) (out : String)
    (hfind : store.find? (fun s => s.trigger == trigger) = Option.some spell)
    (hstream : spell.stream_mode = false)
    (hmode : spell.output_mode = OutputMode.clipboard ∨ spell.output_mode = OutputMode.paste)
    (hexec : exec spell.entry_cmd spell.collection_dir sel = Except.ok out) :
    Effect.clipboardSet (trim_end_matches_newline out) ∈
      (apply_spell store prev sel exec trigger).2 ∧
    (∃ k, out.data = (trim_end_matches_newline out).data ++ List.replicate k '\n') ∧
    ¬ ((trim_end_matches_newline out).data.getLast? = Option.some '\n') := by
  refine ⟨?_, trim_decomposition out, trim_no_trailing_newline out⟩
  rcases hmode with h | h <;> simp [apply_spell, hfind, h, hstream, hexec]

/-- C10 witness: output a, carriage return, newline keeps the carriage return
on the clipboard, while output b followed by three newlines loses them all. -/
theorem clipboard_trim_all_and_only_newlines_witness :
    Effect.clipboardSet "a\r" ∈
      (apply_spell [⟨"t", Option.none, "d", "c", OutputMode.clipboard, false⟩] 0 ""
        (fun _ _ _ => Except.ok "a\r\n") "t").2 ∧
    Effect.clipboardSet "b" ∈
      (apply_spell [⟨"t", Option.none, "d", "c", OutputMode.paste, false⟩] 0 ""
        (fun _ _ _ => Except.ok "b\n\n\n") "t").2 :=
  ⟨(clipboard_trim_all_and_only_newlines
      [⟨"t", Option.none, "d", "c", OutputMode.clipboard, false⟩] 0 ""
      (fun _ _ _ => Except.ok "a\r\n") "t"
      ⟨"t", Option.none, "d", "c", OutputMode.clipboard, false⟩ "a\r\n"
      rfl rfl (Or.inl rfl) rfl).1,
   (clipboard_trim_all_and_only_newlines
      [⟨"t", Option.none, "d", "c", OutputMode.paste, false⟩] 0 ""
      (fun _ _ _ => Except.ok "b\n\n\n") "t"
      ⟨"t", Option.none, "d", "c", OutputMode.paste, false⟩ "b\n\n\n"
      rfl rfl (Or.inr rfl) rfl).1⟩
